import Mathlib

/-!
Verification of the reconciliation engine of the
`transaction-reconciliation-bot` repository.

The embedding models the Python/pandas code in `src/recon_engine.py`,
`src/data_loader.py`, `src/analyzer.py` and `src/notifier/slack_notifier.py`.
Cell values are modelled by `PyVal`; pandas "missing" floats are `PyVal.nan`
and Python `None` is `PyVal.pnone`, so the Python `!=` comparison used by
`classify` (under which `NaN != NaN` is `True`) is captured exactly by
`pyNe` below.
-/

namespace ReconBot

/-- A value held in a pandas cell, as seen by the Python code:
a missing float (`NaN`), Python `None` (what `Series.get` returns for an
absent label), a numeric value, or a string.  Floats are modelled by `ℚ`;
the code performs no arithmetic on them, only `!=` comparisons, which `ℚ`
equality captures (two distinct float literals stay distinct). -/
inductive PyVal where
  | nan : PyVal
  | pnone : PyVal
  | num : ℚ → PyVal
  | pstr : String → PyVal
deriving DecidableEq, Repr

/-- Python `!=` on cell values, exactly as evaluated inside `classify`
(recon_engine.py lines 64, 66, 68): `NaN != x` is `True` for every `x`
including `NaN` itself; `None != None` is `False`; equal numbers and equal
strings compare equal; values of different types compare unequal
(no numeric-string coercion arises after normalization). -/
def pyNe : PyVal → PyVal → Bool
  | .nan, _ => true
  | _, .nan => true
  | .pnone, .pnone => false
  | .num a, .num b => a != b
  | .pstr a, .pstr b => a != b
  | _, _ => true

/-- The `_merge` indicator column produced by `pd.merge(..., indicator=True)`
(recon_engine.py lines 49-56). -/
inductive Merge where
  | leftOnly    -- `'left_only'`: the row came from `df_internal` only
  | rightOnly   -- `'right_only'`: the row came from `df_gateway` only
  | both        -- `'both'`: the key is present on both sides
deriving DecidableEq, Repr

/-- One row of the merged frame as read by `classify`: the join key, the
`_merge` indicator, and the suffixed amount/status/currency cells.  The
amount and status columns are accessed with `row[...]` in the source, the
currency columns with `row.get(...)`; rows model merged frames in which the
amount and status columns exist on both sides (otherwise `row['amount_...']`
would raise), with `nan` for a missing cell and `pnone` for the `row.get`
result when a currency column is absent altogether. -/
structure Row where
  tx_id : String
  tag : Merge
  amount_internal : PyVal
  amount_gateway : PyVal
  status_internal : PyVal
  status_gateway : PyVal
  currency_internal : PyVal
  currency_gateway : PyVal
deriving DecidableEq, Repr

/-- `classify` from recon_engine.py lines 58-71, verbatim structure:
`_merge` is tested first (`left_only`, then `right_only`), and only rows
present on both sides fall through to the amount, status and currency
comparisons, each written with Python `!=`. -/
def classify (row : Row) : String :=
  if row.tag = .leftOnly then "missing_in_gateway"
  else if row.tag = .rightOnly then "missing_in_internal"
  else
    if pyNe row.amount_internal row.amount_gateway then "amount_mismatch"
    else if pyNe row.status_internal row.status_gateway then "status_mismatch"
    else if pyNe row.currency_internal row.currency_gateway then "currency_mismatch"
    else "matched"

/-- The six discrepancy categories of the taxonomy. -/
def categories : List String :=
  ["missing_in_gateway", "missing_in_internal", "amount_mismatch",
   "status_mismatch", "currency_mismatch", "matched"]

/-- A normalized transaction record, one row of a frame after `normalize`:
a string `tx_id` plus the amount/status/currency cells.  `nan` models a
missing cell; `pnone` models a source frame that has no currency column at
all (`row.get` then yields `None` after the merge). -/
structure NRec where
  tx_id : String
  amount : PyVal
  status : PyVal
  currency : PyVal
deriving DecidableEq, Repr

/-- The joined row built for an internal record matched with a gateway
record (`_merge = 'both'`). -/
def bothRow (l r : NRec) : Row :=
  ⟨l.tx_id, .both, l.amount, r.amount, l.status, r.status, l.currency, r.currency⟩

/-- The joined row for an internal record with no gateway partner: pandas
fills every gateway-side column with `NaN`. -/
def leftOnlyRow (l : NRec) : Row :=
  ⟨l.tx_id, .leftOnly, l.amount, .nan, l.status, .nan, l.currency, .nan⟩

/-- The joined row for a gateway record with no internal partner. -/
def rightOnlyRow (r : NRec) : Row :=
  ⟨r.tx_id, .rightOnly, .nan, r.amount, .nan, r.status, .nan, r.currency⟩

/-- `pd.merge(df_internal, df_gateway, on='tx_id', how='outer', indicator=True)`
(recon_engine.py lines 49-56) on row sets: every internal row is paired with
every gateway row sharing its key (pandas produces the full cross product on
duplicate keys), an internal row with no partner becomes a `left_only` row,
and gateway rows whose key never occurs internally follow as `right_only`
rows. -/
def mergeOuter (L R : List NRec) : List Row :=
  (L.flatMap fun l =>
    let ms := R.filter fun r => r.tx_id == l.tx_id
    if ms.isEmpty then [leftOnlyRow l] else ms.map (bothRow l))
  ++ ((R.filter fun r => !(L.any fun l => l.tx_id == r.tx_id)).map rightOnlyRow)

/-- A classified row: the joined row plus its `discrepancy_type` column
(recon_engine.py line 73). -/
structure CRow where
  base : Row
  discrepancy_type : String
deriving DecidableEq, Repr

/-- The classification pass of `reconcile`: merge the two normalized record
sets and attach `discrepancy_type = classify(row)` to every joined row. -/
def reconcileCore (L R : List NRec) : List CRow :=
  (mergeOuter L R).map fun row => ⟨row, classify row⟩

/-- The `tx_id` column of a record set. -/
def txKeys (L : List NRec) : List String := L.map (·.tx_id)

/-- The rows `reconcile` selects for alerting:
`result[result['discrepancy_type'] != 'matched']` (recon_engine.py line 81). -/
def discrepancies (L R : List NRec) : List CRow :=
  (reconcileCore L R).filter fun c => c.discrepancy_type ≠ "matched"

/-- The alert decision of `reconcile` (recon_engine.py line 82):
`send_slack_alert` is reached exactly when the discrepancy selection is
nonempty and the `USE_SLACK` flag is set. -/
def alertSent (useSlack : Bool) (L R : List NRec) : Bool :=
  !(discrepancies L R).isEmpty && useSlack

/-- The early-return guards inside `send_slack_alert`
(slack_notifier.py lines 22-41): the collaborator posts nothing unless its
own `USE_SLACK` flag is set, a token and a channel are configured, and the
report it reads contains a record whose `discrepancy_type` is not
`'matched'`. -/
def slackPosts (useSlack : Bool) (token channel : Option String)
    (report : List CRow) : Bool :=
  useSlack && token.isSome && channel.isSome
    && !(report.filter fun c => c.discrepancy_type ≠ "matched").isEmpty

/-!  The enrichment pipeline of `src/analyzer.py`.  The external
text-generation collaborator (the OpenAI chat call of `ai_explanation`,
analyzer.py lines 89-98) is modelled by an oracle `CRow → Except String
String`: `.ok content` is a successful response (the code then applies
`.strip()`), `.error e` is any raised exception — timeout, quota,
malformed response — which the code catches.  -/

/-- Rendering of a cell inside a Python f-string, as used by
`rule_based_reason` (analyzer.py lines 36, 41).  Exact float formatting is
approximated by the `ℚ` representation — no verified claim depends on the
rendered digits, only on the surrounding fixed text. -/
def showPy : PyVal → String
  | .nan => "nan"
  | .pnone => "None"
  | .num q => toString q
  | .pstr s => s

/-- `rule_based_reason` (analyzer.py lines 14-50): a deterministic lookup
on `discrepancy_type`, interpolating the statuses resp. amounts into the
two value-mismatch messages. -/
def rule_based_reason (r : CRow) : String :=
  if r.discrepancy_type = "missing_in_gateway" then
    "Internal record exists but not found in gateway. Possible cause: failed API callback, unprocessed webhook, or gateway delay."
  else if r.discrepancy_type = "missing_in_internal" then
    "Transaction found in gateway but missing internally. Possible cause: failed DB write, timeout after payment success, or system crash."
  else if r.discrepancy_type = "status_mismatch" then
    "Status differs (Internal: " ++ showPy r.base.status_internal
      ++ ", Gateway: " ++ showPy r.base.status_gateway
      ++ "). Likely due to delayed webhook update or manual override."
  else if r.discrepancy_type = "amount_mismatch" then
    "Amounts differ (Internal: " ++ showPy r.base.amount_internal
      ++ ", Gateway: " ++ showPy r.base.amount_gateway
      ++ "). Possible rounding error, currency conversion issue, or duplicate transaction."
  else if r.discrepancy_type = "currency_mismatch" then
    "Currency inconsistency between systems. Likely config error or wrong payment channel mapping."
  else "No issue detected."

/-- `suggested_action` (analyzer.py lines 53-69): a deterministic lookup on
`discrepancy_type`. -/
def suggested_action (r : CRow) : String :=
  if r.discrepancy_type = "missing_in_gateway" then
    "Verify if gateway webhook/API callback was received; retry if necessary."
  else if r.discrepancy_type = "missing_in_internal" then
    "Re-fetch transaction data from gateway and reinsert into DB."
  else if r.discrepancy_type = "status_mismatch" then
    "Sync statuses by calling gateway verify endpoint."
  else if r.discrepancy_type = "amount_mismatch" then
    "Escalate to finance for manual review."
  else if r.discrepancy_type = "currency_mismatch" then
    "Check currency mapping and payment channel configuration."
  else "No action required."

/-- `ai_explanation` (analyzer.py lines 72-102).  Returns the explanation
string together with whether the external collaborator was invoked: a
`matched` record returns the fixed consistent-transaction message before
any call; otherwise the collaborator is called, a successful response is
stripped, and any exception is caught and replaced by the fixed
unavailability placeholder. -/
def ai_explanation (oracle : CRow → Except String String) (r : CRow) :
    String × Bool :=
  if r.discrepancy_type = "matched" then
    ("Transaction is consistent across systems.", false)
  else
    match oracle r with
    | .ok content => (content.trim, true)
    | .error _ => ("AI explanation unavailable (check API key or rate limit).", true)

/-- `ai_limit = 5` (analyzer.py line 117): the fixed per-run cap. -/
def ai_limit : Nat := 5

/-- An enriched record: the classified row plus the three enrichment
columns set by `enrich_with_analysis` (analyzer.py lines 129-142). -/
structure ERow where
  base : Row
  discrepancy_type : String
  probable_reason : String
  suggested_action : String
  ai_explanation : String
deriving DecidableEq, Repr

/-- One iteration of the `enrich_with_analysis` loop (analyzer.py lines
124-144) on the record at position `i`: the rule-based columns are always
set; `ai_explanation` is the disabled placeholder when `use_ai` is off, the
limit placeholder when `i` has reached `ai_limit` (the check is on the
row's position, not on a count of calls actually made), and otherwise the
result of `ai_explanation`.  The second component records whether the
external collaborator was invoked for this record. -/
def enrichStep (use_ai : Bool) (oracle : CRow → Except String String)
    (i : Nat) (r : CRow) : ERow × Bool :=
  let pr := rule_based_reason r
  let sa := suggested_action r
  if !use_ai then
    (⟨r.base, r.discrepancy_type, pr, sa, "AI analysis skipped (USE_AI=False)."⟩, false)
  else if i ≥ ai_limit then
    (⟨r.base, r.discrepancy_type, pr, sa, "Skipped AI analysis (limit reached)."⟩, false)
  else
    let ai := ai_explanation oracle r
    (⟨r.base, r.discrepancy_type, pr, sa, ai.1⟩, ai.2)

/-- The full enrichment loop, keeping the call flags.  The loop index `i`
of `df.iterrows()` equals the row position, because the merged frame
carries a fresh `RangeIndex`. -/
def enrichAll (use_ai : Bool) (oracle : CRow → Except String String)
    (rows : List CRow) : List (ERow × Bool) :=
  rows.enum.map fun p => enrichStep use_ai oracle p.1 p.2

/-- `enrich_with_analysis` (analyzer.py lines 106-148): the enriched record
set returned to `save_report`. -/
def enrich_with_analysis (use_ai : Bool) (oracle : CRow → Except String String)
    (rows : List CRow) : List ERow :=
  (enrichAll use_ai oracle rows).map (·.1)

/-!  A column-level model of the pandas frames handled by `normalize`
(recon_engine.py lines 20-37) and the loader dispatch of `data_loader.py`.
A frame is a column-name list plus rows of cells aligned with it, so
renames act on labels only and duplicate column names are representable
(pandas permits them — they arise when both `reference` and `id` are
renamed to `tx_id`).  `normalize` is modelled as the exact sequence of
pandas calls the source performs, each tagged with whether it returns a
fresh frame (plain `df.rename`) or mutates the frame in place
(`inplace=True` renames and column assignments); `runOps` threads the
caller's frame through the sequence, tracking whether the local variable
`df` still aliases it, which is what decides whether an in-place operation
is visible to the caller. -/

/-- A pandas DataFrame: column labels plus rows of cells aligned with them. -/
structure DF where
  cols : List String
  rows : List (List PyVal)
deriving DecidableEq, Repr

/-- `pd.DataFrame()` — the empty frame returned for an unsupported mode
(data_loader.py lines 97-99 and 177-179): no columns, no rows. -/
def emptyDF : DF := ⟨[], []⟩

/-- `df.rename(columns=str.lower)`: lower-cases every column label. -/
def lowerCols (d : DF) : DF := ⟨d.cols.map (fun c => c.toLower), d.rows⟩

/-- `df.rename(columns={old: new})`: relabels every column named `old`. -/
def renameCol (old new : String) (d : DF) : DF :=
  ⟨d.cols.map fun c => if c = old then new else c, d.rows⟩

/-- `df[name] = scalar`: overwrites every column labelled `name`, or
appends a new column holding the scalar when the label is absent. -/
def setCol (name : String) (v : PyVal) (d : DF) : DF :=
  if name ∈ d.cols then
    ⟨d.cols, d.rows.map fun row =>
      (d.cols.zip row).map fun p => if p.1 = name then v else p.2⟩
  else
    ⟨d.cols ++ [name], d.rows.map fun row => row ++ [v]⟩

/-- `astype(str)` on a cell: strings unchanged, numbers rendered (digit
formatting approximated by the `ℚ` representation; no claim depends on it),
`NaN` becomes the string `"nan"` and `None` the string `"None"`. -/
def pyStrCast : PyVal → PyVal
  | .pstr s => .pstr s
  | .num q => .pstr (toString q)
  | .nan => .pstr "nan"
  | .pnone => .pstr "None"

/-- `astype(float)` on a cell: numbers and `NaN` pass through, `None`
becomes `NaN`, and a string raises `ValueError` (spec §4.1: a non-numeric
value is a fatal normalization error; numeric string literals, which pandas
would parse, are not modelled — no claim exercises them). -/
def pyFloatCast : PyVal → Except String PyVal
  | .num q => .ok (.num q)
  | .nan => .ok .nan
  | .pnone => .ok .nan
  | .pstr _ => .error "ValueError: could not convert string to float"

/-- `.str.lower()` on a cell: strings are lower-cased, anything else
becomes `NaN`. -/
def pyStrLower : PyVal → PyVal
  | .pstr s => .pstr s.toLower
  | _ => .nan

/-- `df[name] = df[name].astype(...)`: applies `f` to every cell of every
column labelled `name`; accessing an absent label raises `KeyError`. -/
def mapCol (name : String) (f : PyVal → Except String PyVal) (d : DF) :
    Except String DF :=
  if name ∈ d.cols then do
    let rows ← d.rows.mapM fun row =>
      (d.cols.zip row).mapM fun p => if p.1 = name then f p.2 else .ok p.2
    .ok ⟨d.cols, rows⟩
  else .error ("KeyError: " ++ name)

/-- The pandas calls performed by `normalize`, in source order
(recon_engine.py lines 24-35). -/
inductive DFOp where
  | lowerAll                -- line 24: `df = df.rename(columns=str.lower)`
  | renameReference         -- lines 25-26: guarded `inplace=True` rename
  | renameId                -- lines 27-28: guarded `inplace=True` rename
  | setSource (s : String)  -- line 30: `df['source'] = source_name`
  | castTxIdStr             -- line 31: `df['tx_id'] = df['tx_id'].astype(str)`
  | castAmountFloat         -- lines 32-33: guarded float cast
  | lowerStatus             -- lines 34-35: guarded `.str.lower()`
deriving DecidableEq, Repr

/-- The frame each call produces (or the exception it raises). -/
def opApply : DFOp → DF → Except String DF
  | .lowerAll, d => .ok (lowerCols d)
  | .renameReference, d =>
      .ok (if "reference" ∈ d.cols then renameCol "reference" "tx_id" d else d)
  | .renameId, d =>
      .ok (if "id" ∈ d.cols then renameCol "id" "tx_id" d else d)
  | .setSource s, d => .ok (setCol "source" (.pstr s) d)
  | .castTxIdStr, d => mapCol "tx_id" (fun v => .ok (pyStrCast v)) d
  | .castAmountFloat, d =>
      if "amount" ∈ d.cols then mapCol "amount" pyFloatCast d else .ok d
  | .lowerStatus, d =>
      if "status" ∈ d.cols then
        mapCol "status" (fun v => .ok (pyStrLower v)) d
      else .ok d

/-- Whether the call returns a fresh frame (plain `df.rename` does) or
mutates the frame the local variable points at (`inplace=True` renames and
column assignments do). -/
def opCopies : DFOp → Bool
  | .lowerAll => true
  | _ => false

/-- The call sequence of `normalize`. -/
def normalizeOps (source : String) : List DFOp :=
  [.lowerAll, .renameReference, .renameId, .setSource source,
   .castTxIdStr, .castAmountFloat, .lowerStatus]

/-- Runs a call sequence the way the Python function body does: `caller` is
the frame the caller passed in, `cur` the frame the local variable `df`
currently points at, and `aliased` whether they are still the same object.
A copying call leaves the caller's frame behind for good; a mutating call
is visible to the caller exactly while `df` still aliases the argument; an
exception propagates immediately, leaving the caller's frame as it was. -/
def runOps : List DFOp → DF → DF → Bool → DF × Except String DF
  | [], caller, cur, _ => (caller, .ok cur)
  | op :: rest, caller, cur, aliased =>
    match opApply op cur with
    | .error e => (caller, .error e)
    | .ok next =>
      if opCopies op then runOps rest caller next false
      else if aliased then runOps rest next next true
      else runOps rest caller next false

/-- `normalize(df, source_name)` run against a caller frame: the caller's
frame after the call, and the returned frame or raised exception. -/
def normalizeRun (d : DF) (source : String) : DF × Except String DF :=
  runOps (normalizeOps source) d d true

/-- The value `normalize` returns (or the exception it raises). -/
def normalize (d : DF) (source : String) : Except String DF :=
  (normalizeRun d source).2

/-- The caller's frame after `normalize` returns. -/
def normalizeCaller (d : DF) (source : String) : DF :=
  (normalizeRun d source).1

/-- The effect of `reconcile(df_internal, df_gateway)` on the two frames
its caller passed in: `reconcile` hands each frame to `normalize` and
rebinds its local names to the results (recon_engine.py lines 46-47); every
later step (`pd.merge`, `apply`, `drop`, report writing, enrichment over
`iterrows` copies) builds fresh frames and never references the arguments
again, so the caller-visible effect is exactly that of the two `normalize`
calls. -/
def reconcileCallerFrames (dI dG : DF) : DF × DF :=
  (normalizeCaller dI "internal", normalizeCaller dG "gateway")

/-- The identifier-rename step of `normalize` on the (already lower-cased)
column labels (recon_engine.py lines 25-28): rename `reference` to `tx_id`
if present, then — independently, not `elif` — rename `id` to `tx_id` if
present. -/
def renameReferenceStep (cols : List String) : List String :=
  if "reference" ∈ cols then
    cols.map fun c => if c = "reference" then "tx_id" else c
  else cols

/-- Second rename of the identifier step: `id` to `tx_id` if present. -/
def renameIdStep (cols : List String) : List String :=
  if "id" ∈ cols then
    cols.map fun c => if c = "id" then "tx_id" else c
  else cols

/-- Both identifier renames in source order. -/
def renameTxId (cols : List String) : List String :=
  renameIdStep (renameReferenceStep cols)

/-- The mode dispatch of `load_internal_data` (data_loader.py lines 52-99):
the three supported modes acquire data from an external collaborator
(modelled by `fetch`, out of scope per spec §6); any other mode string
returns the empty frame. -/
def load_internal_data (mode : String) (fetch : String → DF) : DF :=
  if mode = "mock" ∨ mode = "mongo" ∨ mode = "sql" then fetch mode else emptyDF

/-- The mode dispatch of `load_gateway_data` (data_loader.py lines
121-179). -/
def load_gateway_data (mode : String) (fetch : String → DF) : DF :=
  if mode = "mock" ∨ mode = "paystack" ∨ mode = "stripe" then fetch mode
  else emptyDF

/-- `NaN` on the left of Python `!=` compares unequal to everything. -/
lemma pyNe_nan_left (v : PyVal) : pyNe .nan v = true := by
  cases v <;> rfl

/-- `NaN` on the right of Python `!=` compares unequal to everything. -/
lemma pyNe_nan_right (v : PyVal) : pyNe v .nan = true := by
  cases v <;> rfl

/-- Python `!=` is false on two equal non-`NaN` values. -/
lemma pyNe_self (v : PyVal) (h : v ≠ .nan) : pyNe v v = false := by
  cases v with
  | nan => exact absurd rfl h
  | pnone => rfl
  | num a => simp [pyNe]
  | pstr a => simp [pyNe]

/-- C1: for every joined row the classifier yields exactly one of the six
categories, chosen by the fixed precedence: a `left_only` row is always
`missing_in_gateway` and a `right_only` row always `missing_in_internal`
(whatever the amounts hold), and `amount_mismatch`, `status_mismatch`,
`currency_mismatch`, `matched` occur only for rows present on both sides,
each only when every earlier comparison came out equal. -/
theorem classify_exclusive_precedence (row : Row) :
    classify row ∈ categories
    ∧ (row.tag = .leftOnly → classify row = "missing_in_gateway")
    ∧ (row.tag = .rightOnly → classify row = "missing_in_internal")
    ∧ (classify row = "amount_mismatch" →
        row.tag = .both ∧ pyNe row.amount_internal row.amount_gateway = true)
    ∧ (classify row = "status_mismatch" →
        row.tag = .both ∧ pyNe row.amount_internal row.amount_gateway = false
          ∧ pyNe row.status_internal row.status_gateway = true)
    ∧ (classify row = "currency_mismatch" →
        row.tag = .both ∧ pyNe row.amount_internal row.amount_gateway = false
          ∧ pyNe row.status_internal row.status_gateway = false
          ∧ pyNe row.currency_internal row.currency_gateway = true)
    ∧ (classify row = "matched" →
        row.tag = .both ∧ pyNe row.amount_internal row.amount_gateway = false
          ∧ pyNe row.status_internal row.status_gateway = false
          ∧ pyNe row.currency_internal row.currency_gateway = false) := by
  rcases row with ⟨tx, tag, ai, ag, si, sg, ci, cg⟩
  cases tag with
  | leftOnly => simp [classify, categories]
  | rightOnly => simp [classify, categories]
  | both =>
    cases ham : pyNe ai ag <;> cases hst : pyNe si sg <;> cases hcur : pyNe ci cg <;>
      simp [classify, categories, ham, hst, hcur]

/-- Witness for C1 at a concrete left-only row whose amounts also disagree. -/
theorem classify_exclusive_precedence_witness :
    classify ⟨"B", .leftOnly, .num 50, .nan, .pstr "success", .nan, .pnone, .nan⟩
      = "missing_in_gateway" :=
  (classify_exclusive_precedence
    ⟨"B", .leftOnly, .num 50, .nan, .pstr "success", .nan, .pnone, .nan⟩).2.1 rfl

/-- Counterexample to C3: a row present on both sides whose amount is absent
(`NaN`) on both sides is classified `amount_mismatch` — the classifier does
not fall through to the status comparison, because in Python `NaN != NaN`
is `True`. -/
theorem both_absent_amounts_cex :
    classify ⟨"E", .both, .nan, .nan, .pstr "success", .pstr "success",
      .pstr "USD", .pstr "USD"⟩ = "amount_mismatch" := by
  decide

/-- C3 amended: an absent amount compares unequal to every amount, a second
absent amount included, so a both-sides row with the amount absent on at
least one side is always classified `amount_mismatch`. -/
theorem absent_amount_any_side_mismatch (row : Row) (htag : row.tag = .both)
    (h : row.amount_internal = .nan ∨ row.amount_gateway = .nan) :
    classify row = "amount_mismatch" := by
  rcases h with h | h <;>
    simp [classify, htag, h, pyNe_nan_left, pyNe_nan_right]

/-- Witness for the amended C3 at a row whose amount is absent on exactly
one side. -/
theorem absent_amount_any_side_mismatch_witness :
    classify ⟨"F", .both, .nan, .num 5, .pstr "success", .pstr "success",
      .pnone, .pnone⟩ = "amount_mismatch" :=
  absent_amount_any_side_mismatch
    ⟨"F", .both, .nan, .num 5, .pstr "success", .pstr "success", .pnone, .pnone⟩
    rfl (Or.inl rfl)

/-- Mapping after filtering on a property of the mapped value. -/
lemma map_filter_comm {α β : Type} (f : α → β) (p : β → Bool) (l : List α) :
    (l.filter fun a => p (f a)).map f = (l.map f).filter p := by
  induction l with
  | nil => rfl
  | cons x xs ih => by_cases h : p (f x) <;> simp [List.filter_cons, h, ih]

/-- With a duplicate-free gateway key column, at most one gateway record
carries any given key. -/
lemma filter_key_length_le (R : List NRec) (hR : (txKeys R).Nodup) (k : String) :
    (R.filter fun r => r.tx_id == k).length ≤ 1 := by
  have h1 : (R.filter fun r => r.tx_id == k).length = (txKeys R).count k := by
    rw [← List.countP_eq_length_filter, List.count, txKeys, List.countP_map]
    rfl
  rw [h1]
  exact List.nodup_iff_count_le_one.1 hR k

/-- The key column of the internal-side block of the outer merge is exactly
the internal key column: with unique gateway keys, every internal record
contributes exactly one joined row carrying its own key. -/
lemma leftBlock_keys (L R : List NRec) (hR : (txKeys R).Nodup) :
    ((L.flatMap fun l =>
        let ms := R.filter fun r => r.tx_id == l.tx_id
        if ms.isEmpty then [leftOnlyRow l] else ms.map (bothRow l)).map (·.tx_id))
      = txKeys L := by
  induction L with
  | nil => rfl
  | cons x xs ih =>
    simp only [List.flatMap_cons, List.map_append, ih]
    show _ ++ txKeys xs = x.tx_id :: txKeys xs
    rw [show x.tx_id :: txKeys xs = [x.tx_id] ++ txKeys xs from rfl]
    congr 1
    by_cases hemp : (R.filter fun r => r.tx_id == x.tx_id).isEmpty
    · simp only [hemp, if_pos]
      rfl
    · simp only [hemp, Bool.false_eq_true, if_neg, not_false_iff]
      have hle := filter_key_length_le R hR x.tx_id
      rcases hms : R.filter fun r => r.tx_id == x.tx_id with _ | ⟨r, rest⟩
      · rw [hms] at hemp
        exact absurd rfl hemp
      · rw [hms] at hle
        simp only [List.length_cons] at hle
        have hrest : rest = [] := List.length_eq_zero.1 (by omega)
        subst hrest
        rw [hms]
        simp [bothRow]

/-- The key column of the whole outer merge: the internal keys, followed by
the gateway keys that occur on the gateway side only. -/
lemma mergeOuter_keys (L R : List NRec) (hR : (txKeys R).Nodup) :
    (mergeOuter L R).map (·.tx_id)
      = txKeys L ++ ((txKeys R).filter fun k => !(L.any fun l => l.tx_id == k)) := by
  unfold mergeOuter
  rw [List.map_append, leftBlock_keys L R hR]
  congr 1
  rw [List.map_map]
  exact map_filter_comm (fun r => r.tx_id)
    (fun k => !(L.any fun l => l.tx_id == k)) R

/-- The merged key column is duplicate-free when both inputs are. -/
lemma mergeOuter_keys_nodup (L R : List NRec)
    (hL : (txKeys L).Nodup) (hR : (txKeys R).Nodup) :
    (txKeys L ++ ((txKeys R).filter fun k => !(L.any fun l => l.tx_id == k))).Nodup := by
  refine List.Nodup.append hL (hR.filter _) ?_
  intro a haL haR
  have hpred := (List.mem_filter.1 haR).2
  simp only [Bool.not_eq_true', List.any_eq_false, beq_iff_eq] at hpred
  obtain ⟨l, hl, rfl⟩ := List.mem_map.1 haL
  exact hpred l hl rfl

/-- The merged key column covers exactly the union of the two key sets. -/
lemma mergeOuter_keys_toFinset (L R : List NRec) :
    (txKeys L ++ ((txKeys R).filter fun k => !(L.any fun l => l.tx_id == k))).toFinset
      = (txKeys L).toFinset ∪ (txKeys R).toFinset := by
  ext a
  simp only [List.toFinset_append, Finset.mem_union, List.mem_toFinset,
    List.mem_filter, Bool.not_eq_true', List.any_eq_false, beq_iff_eq, txKeys,
    List.mem_map]
  constructor
  · rintro (h | ⟨h, _⟩)
    · exact Or.inl h
    · exact Or.inr h
  · rintro (h | h)
    · exact Or.inl h
    · by_cases hin : ∃ l ∈ L, l.tx_id = a
      · obtain ⟨l, hl, rfl⟩ := hin
        exact Or.inl ⟨l, hl, rfl⟩
      · push_neg at hin
        exact Or.inr ⟨h, hin⟩

/-- C2: with `tx_id` unique inside each normalized record set, the
reconciliation output has exactly one classified record per `tx_id`
appearing on either side, and its length is the cardinality of the union of
the two key sets. -/
theorem join_completeness (L R : List NRec)
    (hL : (txKeys L).Nodup) (hR : (txKeys R).Nodup) :
    (reconcileCore L R).length
        = ((txKeys L).toFinset ∪ (txKeys R).toFinset).card
    ∧ ∀ k : String, (k ∈ txKeys L ∨ k ∈ txKeys R) →
        ((reconcileCore L R).countP fun c => c.base.tx_id == k) = 1 := by
  have hkeys := mergeOuter_keys L R hR
  have hnd := mergeOuter_keys_nodup L R hL hR
  constructor
  · have h1 : (reconcileCore L R).length = (mergeOuter L R).length :=
      List.length_map _ _
    have h2 : (mergeOuter L R).length = ((mergeOuter L R).map (·.tx_id)).length :=
      (List.length_map _ _).symm
    rw [h1, h2, hkeys, ← mergeOuter_keys_toFinset L R,
      List.toFinset_card_of_nodup hnd]
  · intro k hk
    have hcnt : ((reconcileCore L R).countP fun c => c.base.tx_id == k)
        = ((mergeOuter L R).map (·.tx_id)).countP (· == k) := by
      rw [reconcileCore, List.countP_map, List.countP_map]
      rfl
    rw [hcnt, hkeys]
    show List.count k _ = 1
    rw [List.count_append]
    by_cases hkL : k ∈ txKeys L
    · have c1 : (txKeys L).count k = 1 := List.count_eq_one_of_mem hL hkL
      have c2 : ((txKeys R).filter fun k' => !(L.any fun l => l.tx_id == k')).count k = 0 := by
        rw [List.count_eq_zero]
        intro hmem
        have hpred := (List.mem_filter.1 hmem).2
        simp only [Bool.not_eq_true', List.any_eq_false, beq_iff_eq] at hpred
        obtain ⟨l, hl, rfl⟩ := List.mem_map.1 hkL
        exact hpred l hl rfl
      omega
    · have c1 : (txKeys L).count k = 0 := List.count_eq_zero.2 hkL
      have hkR : k ∈ txKeys R := hk.resolve_left hkL
      have hmem : k ∈ (txKeys R).filter fun k' => !(L.any fun l => l.tx_id == k') := by
        refine List.mem_filter.2 ⟨hkR, ?_⟩
        simp only [Bool.not_eq_true', List.any_eq_false, beq_iff_eq]
        intro l hl hkey
        exact hkL (List.mem_map.2 ⟨l, hl, hkey⟩)
      have c2 := List.count_eq_one_of_mem (hR.filter _) hmem
      omega

/-- Witness for C2: one internal record, one gateway record, distinct keys. -/
theorem join_completeness_witness :
    (reconcileCore [⟨"A", .num 100, .pstr "success", .pstr "USD"⟩]
        [⟨"B", .num 50, .pstr "success", .pstr "USD"⟩]).length
      = ((txKeys [⟨"A", .num 100, .pstr "success", .pstr "USD"⟩]).toFinset
          ∪ (txKeys [⟨"B", .num 50, .pstr "success", .pstr "USD"⟩]).toFinset).card
    ∧ ((reconcileCore [⟨"A", .num 100, .pstr "success", .pstr "USD"⟩]
        [⟨"B", .num 50, .pstr "success", .pstr "USD"⟩]).countP
          fun c => c.base.tx_id == "A") = 1 :=
  ⟨(join_completeness _ _ (by decide) (by decide)).1,
   (join_completeness _ _ (by decide) (by decide)).2 "A" (Or.inl (by decide))⟩

/-- In a record set with unique keys, filtering on a member's key finds
exactly that member. -/
lemma filter_self_key (L : List NRec) (hnd : (txKeys L).Nodup)
    (l : NRec) (hl : l ∈ L) :
    L.filter (fun r => r.tx_id == l.tx_id) = [l] := by
  have hle := filter_key_length_le L hnd l.tx_id
  have hmem : l ∈ L.filter (fun r => r.tx_id == l.tx_id) :=
    List.mem_filter.2 ⟨hl, by simp⟩
  rcases hf : L.filter (fun r => r.tx_id == l.tx_id) with _ | ⟨a, rest⟩
  · rw [hf] at hmem
    cases hmem
  · rw [hf] at hmem hle
    simp only [List.length_cons] at hle
    have hrest : rest = [] := List.length_eq_zero.1 (by omega)
    subst hrest
    have : l = a := by simpa using hmem
    rw [hf, this]

/-- Joining a unique-keyed record set with itself pairs every record with
itself, so every joined row whose cells are not `NaN` classifies as
`matched`. -/
lemma reconcileCore_self_matched (L : List NRec) (hnd : (txKeys L).Nodup)
    (hvals : ∀ r ∈ L, r.amount ≠ .nan ∧ r.status ≠ .nan ∧ r.currency ≠ .nan) :
    ∀ c ∈ reconcileCore L L, c.discrepancy_type = "matched" := by
  intro c hc
  obtain ⟨row, hrow, rfl⟩ := List.mem_map.1 hc
  rw [mergeOuter] at hrow
  rcases List.mem_append.1 hrow with h | h
  · obtain ⟨l, hl, hrl⟩ := List.mem_flatMap.1 h
    rw [filter_self_key L hnd l hl] at hrl
    simp only [List.isEmpty_cons, Bool.false_eq_true, if_neg, not_false_iff,
      List.map_cons, List.map_nil] at hrl
    have hrweq : row = bothRow l l := by simpa using hrl
    subst hrweq
    obtain ⟨ha, hs, hcur⟩ := hvals l hl
    show classify (bothRow l l) = "matched"
    simp [classify, bothRow, pyNe_self _ ha, pyNe_self _ hs, pyNe_self _ hcur]
  · exfalso
    obtain ⟨r, hrf, _⟩ := List.mem_map.1 h
    have hrL := (List.mem_filter.1 hrf).1
    have hpred := (List.mem_filter.1 hrf).2
    simp only [Bool.not_eq_true', List.any_eq_false, beq_iff_eq] at hpred
    exact hpred r hrL rfl

/-- C9: no alert is produced when the feature flag is off or when every
classified record is `matched` — both at the `reconcile` guard
(recon_engine.py lines 81-82) and at the guards inside `send_slack_alert`
(slack_notifier.py lines 22-41) — and in particular reconciling a
unique-keyed record set against an identical copy of itself (all values
present) produces no alert. -/
theorem no_alert_disabled_or_all_matched (useSlack : Bool)
    (L R : List NRec) (token channel : Option String) (report : List CRow) :
    (useSlack = false → alertSent useSlack L R = false)
    ∧ ((∀ c ∈ reconcileCore L R, c.discrepancy_type = "matched") →
        alertSent useSlack L R = false)
    ∧ (useSlack = false → slackPosts useSlack token channel report = false)
    ∧ ((∀ c ∈ report, c.discrepancy_type = "matched") →
        slackPosts useSlack token channel report = false)
    ∧ ((txKeys L).Nodup →
        (∀ r ∈ L, r.amount ≠ .nan ∧ r.status ≠ .nan ∧ r.currency ≠ .nan) →
        alertSent useSlack L L = false) := by
  have hempty : ∀ (M : List CRow), (∀ c ∈ M, c.discrepancy_type = "matched") →
      (M.filter fun c => c.discrepancy_type ≠ "matched").isEmpty = true := by
    intro M hM
    rw [List.isEmpty_iff, List.filter_eq_nil_iff]
    intro c hc
    simp [hM c hc]
  refine ⟨?_, ?_, ?_, ?_, ?_⟩
  · intro h
    simp [alertSent, h]
  · intro h
    simp only [alertSent, discrepancies, hempty _ h, Bool.not_true,
      Bool.false_and]
  · intro h
    simp [slackPosts, h]
  · intro h
    simp only [slackPosts, hempty _ h, Bool.not_true, Bool.and_false]
  · intro hnd hvals
    simp only [alertSent, discrepancies,
      hempty _ (reconcileCore_self_matched L hnd hvals), Bool.not_true,
      Bool.false_and]

/-- Witness for C9 at the concrete all-matched scenario of §8: a single
record reconciled against an identical copy, Slack enabled. -/
theorem no_alert_disabled_or_all_matched_witness :
    alertSent true [⟨"A", .num 100, .pstr "success", .pstr "USD"⟩]
        [⟨"A", .num 100, .pstr "success", .pstr "USD"⟩] = false :=
  (no_alert_disabled_or_all_matched true
      [⟨"A", .num 100, .pstr "success", .pstr "USD"⟩]
      [⟨"A", .num 100, .pstr "success", .pstr "USD"⟩]
      none none []).2.2.2.2 (by decide) (by decide)

/-- The enrichment of the record at position `i` is `enrichStep` of that
record alone. -/
lemma enrichAll_get (use_ai : Bool) (oracle : CRow → Except String String)
    (rows : List CRow) (i : Nat) (h : i < rows.length) :
    (enrichAll use_ai oracle rows).get
        ⟨i, by simpa [enrichAll] using h⟩
      = enrichStep use_ai oracle i (rows.get ⟨i, h⟩) := by
  simp [enrichAll, List.get_eq_getElem, List.getElem_map, List.getElem_enum]

/-- Enrichment preserves the record count. -/
lemma enrichAll_length (use_ai : Bool) (oracle : CRow → Except String String)
    (rows : List CRow) : (enrichAll use_ai oracle rows).length = rows.length := by
  simp [enrichAll]

/-- `enrich_with_analysis` preserves the record count. -/
lemma enrich_with_analysis_length (use_ai : Bool)
    (oracle : CRow → Except String String) (rows : List CRow) :
    (enrich_with_analysis use_ai oracle rows).length = rows.length := by
  simp [enrich_with_analysis, enrichAll]

/-- The enriched record at position `i` is `enrichStep` of the input record
at position `i` alone. -/
lemma enrich_with_analysis_get (use_ai : Bool)
    (oracle : CRow → Except String String) (rows : List CRow)
    (i : Nat) (h : i < rows.length) :
    (enrich_with_analysis use_ai oracle rows).get
        ⟨i, by rw [enrich_with_analysis_length]; exact h⟩
      = (enrichStep use_ai oracle i (rows.get ⟨i, h⟩)).1 := by
  simp [enrich_with_analysis, enrichAll, List.get_eq_getElem]

/-- C7: with AI enabled, a record at position `ai_limit` or beyond never
invokes the external collaborator and receives the fixed limit placeholder. -/
theorem ai_cap_limit_placeholder (oracle : CRow → Except String String)
    (rows : List CRow) (i : Nat) (hcap : ai_limit ≤ i) (hlen : i < rows.length) :
    ((enrichAll true oracle rows).get
        ⟨i, by rw [enrichAll_length]; exact hlen⟩).2 = false
    ∧ ((enrichAll true oracle rows).get
        ⟨i, by rw [enrichAll_length]; exact hlen⟩).1.ai_explanation
        = "Skipped AI analysis (limit reached)." := by
  rw [enrichAll_get true oracle rows i hlen]
  unfold enrichStep
  simp [show i ≥ ai_limit from hcap]

/-- Witness for C7: six matched records, position 5 gets the limit
placeholder without a collaborator call. -/
theorem ai_cap_limit_placeholder_witness :
    ((enrichAll true (fun _ => .ok "ai text")
        (List.replicate 6 ⟨⟨"M", .both, .num 1, .num 1, .pstr "success",
          .pstr "success", .pnone, .pnone⟩, "matched"⟩)).get
        ⟨5, by decide⟩).2 = false
    ∧ ((enrichAll true (fun _ => .ok "ai text")
        (List.replicate 6 ⟨⟨"M", .both, .num 1, .num 1, .pstr "success",
          .pstr "success", .pnone, .pnone⟩, "matched"⟩)).get
        ⟨5, by decide⟩).1.ai_explanation
        = "Skipped AI analysis (limit reached)." :=
  ai_cap_limit_placeholder (fun _ => .ok "ai text") _ 5 (by decide) (by decide)

/-- Counterexample to C6: the AI-call cap is positional, so matched records
do occupy cap slots.  With five matched records followed by one
`amount_mismatch` record, the mismatch at position 5 receives the limit
placeholder without any collaborator call, even though the five matched
records before it consumed no calls; and in an all-matched run of six
records the matched record at position 5 receives the limit placeholder,
not the fixed consistent-transaction message. -/
theorem matched_consume_cap_cex :
    (((enrichAll true (fun _ => .ok "ai text")
        (List.replicate 5 ⟨⟨"M", .both, .num 1, .num 1, .pstr "success",
            .pstr "success", .pnone, .pnone⟩, "matched"⟩
          ++ [⟨⟨"X", .both, .num 1, .num 2, .pstr "success", .pstr "success",
            .pnone, .pnone⟩, "amount_mismatch"⟩])).get
        ⟨5, by decide⟩).1.ai_explanation = "Skipped AI analysis (limit reached)."
      ∧ ((enrichAll true (fun _ => .ok "ai text")
        (List.replicate 5 ⟨⟨"M", .both, .num 1, .num 1, .pstr "success",
            .pstr "success", .pnone, .pnone⟩, "matched"⟩
          ++ [⟨⟨"X", .both, .num 1, .num 2, .pstr "success", .pstr "success",
            .pnone, .pnone⟩, "amount_mismatch"⟩])).get
        ⟨5, by decide⟩).2 = false)
    ∧ ((enrichAll true (fun _ => .ok "ai text")
        (List.replicate 6 ⟨⟨"M", .both, .num 1, .num 1, .pstr "success",
            .pstr "success", .pnone, .pnone⟩, "matched"⟩)).get
        ⟨5, by decide⟩).1.ai_explanation
        ≠ "Transaction is consistent across systems." := by
  refine ⟨⟨rfl, rfl⟩, ?_⟩
  decide

/-- C6 amended: with AI enabled, a matched record below the positional cap
bypasses the collaborator and receives the fixed consistent-transaction
message, but the cap counts positions rather than calls made: every record
at position `ai_limit` or beyond — matched records included, and however
few calls were actually placed before it — receives the limit placeholder
without a call. -/
theorem matched_bypass_positional_cap (oracle : CRow → Except String String)
    (rows : List CRow) (i : Nat) (hlen : i < rows.length) :
    ((rows.get ⟨i, hlen⟩).discrepancy_type = "matched" → i < ai_limit →
      (enrichAll true oracle rows).get ⟨i, by rw [enrichAll_length]; exact hlen⟩
        = (⟨(rows.get ⟨i, hlen⟩).base, (rows.get ⟨i, hlen⟩).discrepancy_type,
            rule_based_reason (rows.get ⟨i, hlen⟩),
            suggested_action (rows.get ⟨i, hlen⟩),
            "Transaction is consistent across systems."⟩, false))
    ∧ (ai_limit ≤ i →
      (enrichAll true oracle rows).get ⟨i, by rw [enrichAll_length]; exact hlen⟩
        = (⟨(rows.get ⟨i, hlen⟩).base, (rows.get ⟨i, hlen⟩).discrepancy_type,
            rule_based_reason (rows.get ⟨i, hlen⟩),
            suggested_action (rows.get ⟨i, hlen⟩),
            "Skipped AI analysis (limit reached)."⟩, false)) := by
  rw [enrichAll_get true oracle rows i hlen]
  constructor
  · intro hm hcap
    simp only [List.get_eq_getElem] at hm
    unfold enrichStep ai_explanation
    simp [hm, show ¬ (i ≥ ai_limit) from by omega]
  · intro hcap
    unfold enrichStep
    simp [show i ≥ ai_limit from hcap]

/-- Witness for the amended C6: a matched record at position 0 receives the
consistent-transaction message with no collaborator call. -/
theorem matched_bypass_positional_cap_witness :
    (enrichAll true (fun _ => .error "down")
        [⟨⟨"M", .both, .num 1, .num 1, .pstr "success", .pstr "success",
          .pnone, .pnone⟩, "matched"⟩]).get ⟨0, by decide⟩
      = (⟨⟨"M", .both, .num 1, .num 1, .pstr "success", .pstr "success",
          .pnone, .pnone⟩, "matched",
          rule_based_reason ⟨⟨"M", .both, .num 1, .num 1, .pstr "success",
            .pstr "success", .pnone, .pnone⟩, "matched"⟩,
          suggested_action ⟨⟨"M", .both, .num 1, .num 1, .pstr "success",
            .pstr "success", .pnone, .pnone⟩, "matched"⟩,
          "Transaction is consistent across systems."⟩, false) :=
  (matched_bypass_positional_cap (fun _ => .error "down") _ 0 (by decide)).1
    (by decide) (by decide)

/-- Every branch of the enrichment loop sets the two rule-based columns
from the deterministic lookup tables. -/
lemma enrichStep_rule_fields (use_ai : Bool)
    (oracle : CRow → Except String String) (i : Nat) (r : CRow) :
    (enrichStep use_ai oracle i r).1.probable_reason = rule_based_reason r
    ∧ (enrichStep use_ai oracle i r).1.suggested_action = suggested_action r := by
  cases use_ai with
  | false => simp [enrichStep]
  | true =>
    simp only [enrichStep]
    split_ifs <;> simp

/-- The `ai_explanation` column set by the loop is always one of: the two
fixed skip placeholders, the fixed consistent-transaction message, the
fixed unavailability placeholder, or the stripped content of a successful
collaborator response. -/
lemma enrichStep_ai_cases (use_ai : Bool)
    (oracle : CRow → Except String String) (i : Nat) (r : CRow) :
    (enrichStep use_ai oracle i r).1.ai_explanation = "AI analysis skipped (USE_AI=False)."
    ∨ (enrichStep use_ai oracle i r).1.ai_explanation = "Skipped AI analysis (limit reached)."
    ∨ (enrichStep use_ai oracle i r).1.ai_explanation = "Transaction is consistent across systems."
    ∨ (enrichStep use_ai oracle i r).1.ai_explanation
        = "AI explanation unavailable (check API key or rate limit)."
    ∨ ∃ content, oracle r = .ok content
        ∧ (enrichStep use_ai oracle i r).1.ai_explanation = content.trim := by
  cases use_ai
  · simp [enrichStep]
  · by_cases hcap : i ≥ ai_limit
    · simp [enrichStep, hcap]
    · by_cases hm : r.discrepancy_type = "matched"
      · simp [enrichStep, hcap, ai_explanation, hm]
      · rcases horacle : oracle r with e | content
        · simp [enrichStep, hcap, ai_explanation, hm, horacle]
        · refine Or.inr (Or.inr (Or.inr (Or.inr ⟨content, ?_, ?_⟩)))
          · rfl
          · simp [enrichStep, hcap, ai_explanation, hm, horacle]

/-- C8: the Enricher is a total function — it returns one enriched record
per input record, each with `probable_reason` and `suggested_action` set
from the deterministic lookup tables and `ai_explanation` set to one of the
fixed messages or a stripped collaborator response; a collaborator failure
on a record is contained to that record and replaced with the fixed
unavailability placeholder, and each record's enrichment depends on that
record alone, so the run continues with the remaining records. -/
theorem enricher_total_failures_contained (use_ai : Bool)
    (oracle : CRow → Except String String) (rows : List CRow) :
    (enrich_with_analysis use_ai oracle rows).length = rows.length
    ∧ (∀ i (h : i < rows.length),
        (enrich_with_analysis use_ai oracle rows).get
            ⟨i, by rw [enrich_with_analysis_length]; exact h⟩
          = (enrichStep use_ai oracle i (rows.get ⟨i, h⟩)).1)
    ∧ (∀ i (h : i < rows.length),
        ((enrich_with_analysis use_ai oracle rows).get
            ⟨i, by rw [enrich_with_analysis_length]; exact h⟩).probable_reason
          = rule_based_reason (rows.get ⟨i, h⟩)
        ∧ ((enrich_with_analysis use_ai oracle rows).get
            ⟨i, by rw [enrich_with_analysis_length]; exact h⟩).suggested_action
          = suggested_action (rows.get ⟨i, h⟩)
        ∧ (((enrich_with_analysis use_ai oracle rows).get
              ⟨i, by rw [enrich_with_analysis_length]; exact h⟩).ai_explanation
              = "AI analysis skipped (USE_AI=False)."
          ∨ ((enrich_with_analysis use_ai oracle rows).get
              ⟨i, by rw [enrich_with_analysis_length]; exact h⟩).ai_explanation
              = "Skipped AI analysis (limit reached)."
          ∨ ((enrich_with_analysis use_ai oracle rows).get
              ⟨i, by rw [enrich_with_analysis_length]; exact h⟩).ai_explanation
              = "Transaction is consistent across systems."
          ∨ ((enrich_with_analysis use_ai oracle rows).get
              ⟨i, by rw [enrich_with_analysis_length]; exact h⟩).ai_explanation
              = "AI explanation unavailable (check API key or rate limit)."
          ∨ ∃ content, oracle (rows.get ⟨i, h⟩) = .ok content
              ∧ ((enrich_with_analysis use_ai oracle rows).get
                  ⟨i, by rw [enrich_with_analysis_length]; exact h⟩).ai_explanation
                = content.trim))
    ∧ (∀ i (h : i < rows.length) (e : String),
        use_ai = true → i < ai_limit →
        (rows.get ⟨i, h⟩).discrepancy_type ≠ "matched" →
        oracle (rows.get ⟨i, h⟩) = .error e →
        ((enrich_with_analysis use_ai oracle rows).get
            ⟨i, by rw [enrich_with_analysis_length]; exact h⟩).ai_explanation
          = "AI explanation unavailable (check API key or rate limit).") := by
  refine ⟨enrich_with_analysis_length use_ai oracle rows, ?_, ?_, ?_⟩
  · intro i h
    exact enrich_with_analysis_get use_ai oracle rows i h
  · intro i h
    rw [enrich_with_analysis_get use_ai oracle rows i h]
    exact ⟨(enrichStep_rule_fields use_ai oracle i _).1,
      (enrichStep_rule_fields use_ai oracle i _).2,
      enrichStep_ai_cases use_ai oracle i _⟩
  · intro i h e hu hcap hm horacle
    rw [enrich_with_analysis_get use_ai oracle rows i h]
    subst hu
    simp only [List.get_eq_getElem] at hm horacle
    simp [enrichStep, show ¬ (i ≥ ai_limit) from by omega,
      ai_explanation, hm, horacle]

/-- Witness for C8: one mismatch record with a failing collaborator — the
run returns one enriched record carrying the unavailability placeholder. -/
theorem enricher_total_failures_contained_witness :
    ((enrich_with_analysis true (fun _ => .error "timeout")
        [⟨⟨"X", .both, .num 1, .num 2, .pstr "success", .pstr "success",
          .pnone, .pnone⟩, "amount_mismatch"⟩]).get ⟨0, by decide⟩).ai_explanation
      = "AI explanation unavailable (check API key or rate limit)." :=
  (enricher_total_failures_contained true (fun _ => .error "timeout")
      [⟨⟨"X", .both, .num 1, .num 2, .pstr "success", .pstr "success",
        .pnone, .pnone⟩, "amount_mismatch"⟩]).2.2.2 0 (by decide) "timeout"
    rfl (by decide) (by decide) rfl

/-- C4 (failing-input theorem): an unsupported mode string makes the loader
contribute the empty frame, but `normalize` then raises
`KeyError: 'tx_id'` on that frame (the empty frame has no `tx_id` column
when line 31 subscripts it), so `reconcile` aborts instead of completing
with the other side classified as missing on the empty side — the
exception is only caught by the top-level handler in `main`, which
produces no report and no classification. -/
theorem unsupported_mode_empty_frame_keyerror (modeI modeG : String)
    (fetch : String → DF)
    (hI : modeI ≠ "mock" ∧ modeI ≠ "mongo" ∧ modeI ≠ "sql")
    (hG : modeG ≠ "mock" ∧ modeG ≠ "paystack" ∧ modeG ≠ "stripe") :
    load_internal_data modeI fetch = emptyDF
    ∧ load_gateway_data modeG fetch = emptyDF
    ∧ normalize emptyDF "internal" = .error "KeyError: tx_id"
    ∧ normalize emptyDF "gateway" = .error "KeyError: tx_id" := by
  obtain ⟨h1, h2, h3⟩ := hI
  obtain ⟨g1, g2, g3⟩ := hG
  exact ⟨by simp [load_internal_data, h1, h2, h3],
    by simp [load_gateway_data, g1, g2, g3], rfl, rfl⟩

/-- Witness for the C4 failing-input theorem at the concrete unsupported
mode string `"csv"`. -/
theorem unsupported_mode_empty_frame_keyerror_witness :
    load_internal_data "csv" (fun _ => emptyDF) = emptyDF
    ∧ load_gateway_data "csv" (fun _ => emptyDF) = emptyDF
    ∧ normalize emptyDF "internal" = .error "KeyError: tx_id"
    ∧ normalize emptyDF "gateway" = .error "KeyError: tx_id" :=
  unsupported_mode_empty_frame_keyerror "csv" "csv" (fun _ => emptyDF)
    ⟨by decide, by decide, by decide⟩ ⟨by decide, by decide, by decide⟩

/-- Counterexample to C5: on a schema containing both `reference` and `id`,
the second rename is a plain `if`, not an `elif`, so `id` does not keep its
name — both columns end up labelled `tx_id`. -/
theorem rename_reference_and_id_cex :
    renameTxId ["reference", "id", "amount"] = ["tx_id", "tx_id", "amount"]
    ∧ "id" ∉ renameTxId ["reference", "id", "amount"] := by
  decide

/-- C5 amended: when both a `reference` and an `id` column are present,
`normalize` renames both to `tx_id` (first `reference`, then — the second
test being an independent `if` — also `id`), leaving no column named
`reference` or `id` and two columns named `tx_id`. -/
theorem rename_reference_then_id_both (cols : List String)
    (h1 : "reference" ∈ cols) (h2 : "id" ∈ cols) :
    renameTxId cols
      = (cols.map fun c => if c = "reference" ∨ c = "id" then "tx_id" else c)
    ∧ "id" ∉ renameTxId cols ∧ "reference" ∉ renameTxId cols := by
  have hmain : renameTxId cols
      = (cols.map fun c => if c = "reference" ∨ c = "id" then "tx_id" else c) := by
    unfold renameTxId renameReferenceStep renameIdStep
    rw [if_pos h1]
    have hid : "id" ∈ cols.map fun c => if c = "reference" then "tx_id" else c := by
      refine List.mem_map.2 ⟨"id", h2, ?_⟩
      decide
    rw [if_pos hid, List.map_map]
    refine List.map_congr_left fun c _ => ?_
    by_cases hc1 : c = "reference"
    · simp [hc1]
    · by_cases hc2 : c = "id" <;> simp [hc1, hc2]
  refine ⟨hmain, ?_, ?_⟩
  · rw [hmain]
    intro hmem
    obtain ⟨c, _, hc⟩ := List.mem_map.1 hmem
    by_cases hc1 : c = "reference" <;> by_cases hc2 : c = "id" <;>
      simp [hc1, hc2] at hc
  · rw [hmain]
    intro hmem
    obtain ⟨c, _, hc⟩ := List.mem_map.1 hmem
    by_cases hc1 : c = "reference" <;> by_cases hc2 : c = "id" <;>
      simp [hc1, hc2] at hc

/-- Witness for the amended C5 at the concrete schema
`["reference", "id", "amount"]`. -/
theorem rename_reference_then_id_both_witness :
    renameTxId ["reference", "id", "amount"]
      = (["reference", "id", "amount"].map
          fun c => if c = "reference" ∨ c = "id" then "tx_id" else c)
    ∧ "id" ∉ renameTxId ["reference", "id", "amount"]
    ∧ "reference" ∉ renameTxId ["reference", "id", "amount"] :=
  rename_reference_then_id_both ["reference", "id", "amount"]
    (by decide) (by decide)

/-- Once the local `df` no longer aliases the caller's frame, no later
operation of the sequence can reach the caller's frame. -/
lemma runOps_fst_of_not_aliased (ops : List DFOp) :
    ∀ caller cur, (runOps ops caller cur false).1 = caller := by
  induction ops with
  | nil => intro caller cur; rfl
  | cons op rest ih =>
    intro caller cur
    cases h : opApply op cur with
    | error e => simp [runOps, h]
    | ok next => by_cases hc : opCopies op <;> simp [runOps, h, hc, ih]

/-- C10: `reconcile` never mutates its two input frames — the first
operation `normalize` performs is the copying `df.rename(columns=str.lower)`,
so every subsequent in-place operation acts on the copy and the caller's
frames keep exactly their column names and values. -/
theorem reconcile_preserves_inputs (dI dG : DF) :
    reconcileCallerFrames dI dG = (dI, dG) := by
  have h : ∀ (d : DF) (s : String), normalizeCaller d s = d := by
    intro d s
    unfold normalizeCaller normalizeRun normalizeOps
    simp [runOps, opApply, opCopies, runOps_fst_of_not_aliased]
    repeat' split
    all_goals rfl
  simp [reconcileCallerFrames, h]

end ReconBot
